import Mathlib

/-!
Shallow embedding of `ttim/well.py` (classes `WellBase`, `DischargeWell`,
`HeadWell`).

Modelling conventions:
- numpy arrays of complex dtype become index functions `ℕ → ... → ℂ`;
  shapes are recorded as natural-number fields (`Naq`, `Np`, `Nin`, `Npin`,
  `Nparam`).  A numpy reshape between shapes `(Np,)` and `(Nin, Npin)` is
  row-major index arithmetic: flat index `p` corresponds to the pair
  `(p / Npin, p % Npin)` and the pair `(j, q)` to `j * Npin + q`.
- floating point arithmetic is modelled by exact real arithmetic (`ℝ`, `ℂ`).
- `scipy.special.kv` (the modified Bessel functions of the second kind,
  orders 0 and 1) is an external library function; it is modelled as
  abstract function arguments `K0 K1 : ℂ → ℂ` passed to the definitions
  that use it.
- the aquifer data object returned by `model.aq.findAquiferData` and the
  owning model are external collaborators (`ttim` classes outside
  `well.py`); they are modelled as plain records of the fields that
  `well.py` reads.  Python's `aq == self.aq` comparison is default object
  identity, modelled by a numeric `id` field on the aquifer record.
- `Element.__init__` (external) stores `tsandbc`, sets `Nunknowns = 0`,
  and converts the `layers` argument to the index array `pylayers`;
  `Element.strength` (external) is modelled as an abstract per-well
  function field.  `Rzero` is an attribute supplied by the element
  machinery, modelled as a constructor argument.
- Python mutation of `self` in `initialize` is modelled by a function
  from the well record to an updated well record.  Fields only set by
  `initialize` hold default values in a freshly constructed record.
-/

/-- Aquifer data context: the fields of the external `AquiferData` object
that `well.py` reads.  `id` models Python object identity, used by the
`aq == self.aq` comparison in `potinf` and `disinf`. -/
structure Aquifer where
  id : ℕ
  Naq : ℕ
  lab : ℕ → ℕ → ℂ
  lab2 : ℕ → ℕ → ℕ → ℂ
  coef : ℕ → ℕ → ℕ → ℂ
  eigvec : ℕ → ℕ → ℕ → ℂ
  Haq : ℕ → ℝ
  T : ℕ → ℝ

/-- The owning model: the fields of the external model object that
`well.py` reads.  `head x y t derivative layer` is the aquifer head
field `model.head`. -/
structure Model where
  Np : ℕ
  Nin : ℕ
  Npin : ℕ
  Ngvbc : ℕ
  p : ℕ → ℂ
  findAquiferData : ℝ → ℝ → Aquifer
  head : ℝ → ℝ → ℝ → ℕ → ℕ → ℝ

/-- The state of a well element: constructor-stored fields followed by the
fields assigned during `initialize` (and, for `HeadWell`, `pc` and
`parameters`).  `strength t derivative k` models the external
`Element.strength` method restricted to screened layer index `k`. -/
structure Well where
  model : Model
  xw : ℝ
  yw : ℝ
  rw : ℝ
  res : ℝ
  tsandbc : List (ℝ × ℝ)
  Nparam : ℕ
  Nunknowns : ℕ
  pylayers : ℕ → ℕ
  Rzero : ℝ
  strength : ℝ → ℕ → ℕ → ℝ
  xc : ℝ
  yc : ℝ
  Ncp : ℕ
  aq : Aquifer
  flowcoef : ℕ → ℂ
  term : ℕ → ℕ → ℕ → ℂ
  term2 : ℕ → ℕ → ℕ → ℕ → ℂ
  strengthinf : ℕ → ℕ → ℕ → ℂ
  strengthinflayers : ℕ → ℕ → ℂ
  resfach : ℕ → ℝ
  resfacp : ℕ → ℝ
  pc : ℕ → ℝ
  parameters : ℕ → ℕ → ℕ → ℂ

/-- Placeholder aquifer record held before `initialize` binds the real one. -/
def defaultAquifer : Aquifer :=
  { id := 0, Naq := 0, lab := fun _ _ => 0, lab2 := fun _ _ _ => 0,
    coef := fun _ _ _ => 0, eigvec := fun _ _ _ => 0,
    Haq := fun _ => 0, T := fun _ => 0 }

/-- Modelled from the spec: `Element.__init__` (repository code outside
`src/`) converts the `layers` argument into the ordered index array
`pylayers` of screened aquifer layers, with `Nparam = |ScreenedLayers|`.
Here `layers` is an explicit list and `pylayers k` is its `k`-th entry. -/
def pylayersOf (layers : List ℕ) : ℕ → ℕ :=
  fun k => layers.getD k 0

/-- `WellBase.__init__`: stores geometry, resistance and the time series,
sets `Nunknowns = 0` (the literal argument passed to `Element.__init__`)
and `Nparam = len(self.pylayers)`.  No validation of `rw`, `res` or
`layers` is performed.  Fields assigned later by `initialize` are
defaulted. -/
def mkWellBase (model : Model) (xw yw rw : ℝ) (tsandbc : List (ℝ × ℝ))
    (res : ℝ) (layers : List ℕ) (Rzero : ℝ)
    (strength : ℝ → ℕ → ℕ → ℝ) : Well :=
  { model := model, xw := xw, yw := yw, rw := rw, res := res,
    tsandbc := tsandbc,
    Nparam := layers.length,
    Nunknowns := 0,
    pylayers := pylayersOf layers,
    Rzero := Rzero, strength := strength,
    xc := 0, yc := 0, Ncp := 0, aq := defaultAquifer,
    flowcoef := fun _ => 0, term := fun _ _ _ => 0,
    term2 := fun _ _ _ _ => 0,
    strengthinf := fun _ _ _ => 0, strengthinflayers := fun _ _ => 0,
    resfach := fun _ => 0, resfacp := fun _ => 0,
    pc := fun _ => 0, parameters := fun _ _ _ => 0 }

/-- `WellBase.setflowcoef`: `self.flowcoef = 1.0 / self.model.p`
(step function).  Neither `DischargeWell` nor `HeadWell` overrides it. -/
noncomputable def setflowcoef (model : Model) : ℕ → ℂ :=
  fun pidx => 1 / model.p pidx

/-- `WellBase.initialize`: binds the aquifer context at the well location,
sets the control point `(xw + rw, yw)`, and computes `flowcoef`, `term`,
`term2`, `strengthinf`, `strengthinflayers`, `resfach`, `resfacp`. -/
noncomputable def initializeWell (K1 : ℂ → ℂ) (w : Well) : Well :=
  let aq := w.model.findAquiferData w.xw w.yw
  let coefw : ℕ → ℕ → ℕ → ℂ := fun k i pidx => aq.coef (w.pylayers k) i pidx
  let laboverrwk1 : ℕ → ℕ → ℂ :=
    fun i pidx => aq.lab i pidx / ((w.rw : ℂ) * K1 ((w.rw : ℂ) / aq.lab i pidx))
  let flowcoef := setflowcoef w.model
  let term : ℕ → ℕ → ℕ → ℂ := fun k i pidx =>
    ((-1 / (2 * Real.pi) : ℝ) : ℂ) * laboverrwk1 i pidx * flowcoef pidx
      * coefw k i pidx
  let term2 : ℕ → ℕ → ℕ → ℕ → ℂ := fun k i j q =>
    term k i (j * w.model.Npin + q)
  let strengthinf : ℕ → ℕ → ℕ → ℂ := fun k i pidx =>
    flowcoef pidx * coefw k i pidx
  let strengthinflayers : ℕ → ℕ → ℂ := fun k pidx =>
    ∑ i in Finset.range aq.Naq,
      strengthinf k i pidx * aq.eigvec (w.pylayers k) i pidx
  let resfach : ℕ → ℝ := fun k =>
    w.res / (2 * Real.pi * w.rw * aq.Haq (w.pylayers k))
  let resfacp : ℕ → ℝ := fun k => resfach k * aq.T (w.pylayers k)
  { w with
    xc := w.xw + w.rw, yc := w.yw, Ncp := 1, aq := aq,
    flowcoef := flowcoef, term := term, term2 := term2,
    strengthinf := strengthinf, strengthinflayers := strengthinflayers,
    resfach := resfach, resfacp := resfacp }

/-- The radial distance `r = sqrt((x-xw)**2 + (y-yw)**2)` computed at the
start of `potinf` and `disinf`. -/
noncomputable def rUnclamped (w : Well) (x y : ℝ) : ℝ :=
  Real.sqrt ((x - w.xw) ^ 2 + (y - w.yw) ^ 2)

/-- The clamp `if r < self.rw: r = self.rw` applied to the radial
distance in both evaluators. -/
noncomputable def rClamped (w : Well) (x y : ℝ) : ℝ :=
  if rUnclamped w x y < w.rw then w.rw else rUnclamped w x y

/-- The `aq` argument resolution `if aq is None: aq =
self.model.aq.findAquiferData(x, y)` shared by both evaluators. -/
def resolveAq (w : Well) (x y : ℝ) (aqOpt : Option Aquifer) : Aquifer :=
  match aqOpt with
  | Option.none => w.model.findAquiferData x y
  | Option.some a => a

/-- `WellBase.potinf`: the potential influence tensor, returned in its
flattened shape `(Nparam, aq.Naq, Np)` with flat Laplace index
`pidx = j * Npin + q`.  The `(i, j)` block is filled with
`term2[:,i,j,:] * K0(r / lab2[i,j,:])` only when
`r / abs(lab2[i,j,0]) < Rzero`; otherwise it stays zero, and the whole
tensor is zero when the aquifer contexts differ. -/
noncomputable def potinf (K0 : ℂ → ℂ) (w : Well) (x y : ℝ)
    (aqOpt : Option Aquifer) : ℕ → ℕ → ℕ → ℂ :=
  let aq := resolveAq w x y aqOpt
  if aq.id = w.aq.id then
    fun _n i pidx =>
      let j := pidx / w.model.Npin
      let q := pidx % w.model.Npin
      if rClamped w x y / Complex.abs (w.aq.lab2 i j 0) < w.Rzero then
        w.term2 _n i j q * K0 ((rClamped w x y : ℂ) / w.aq.lab2 i j q)
      else 0
  else fun _ _ _ => 0

/-- The radial flux tensor `qr` built inside `WellBase.disinf` (lines
55-63), already in its flattened shape: the `(i, j)` block is
`term2[:,i,j,:] * K1(r / lab2[i,j,:]) / lab2[i,j,:]` when
`r / abs(lab2[i,j,0]) < Rzero`, else zero. -/
noncomputable def qrInf (K1 : ℂ → ℂ) (w : Well) (x y : ℝ) :
    ℕ → ℕ → ℕ → ℂ :=
  fun _n i pidx =>
    let j := pidx / w.model.Npin
    let q := pidx % w.model.Npin
    if rClamped w x y / Complex.abs (w.aq.lab2 i j 0) < w.Rzero then
      w.term2 _n i j q * K1 ((rClamped w x y : ℂ) / w.aq.lab2 i j q)
        / w.aq.lab2 i j q
    else 0

/-- `WellBase.disinf`: the pair `(qx, qy)` of discharge influence tensors,
`qx = qr * (x-xw) / r` and `qy = qr * (y-yw) / r` with the clamped `r`;
both are zero tensors when the aquifer contexts differ. -/
noncomputable def disinf (K1 : ℂ → ℂ) (w : Well) (x y : ℝ)
    (aqOpt : Option Aquifer) : (ℕ → ℕ → ℕ → ℂ) × (ℕ → ℕ → ℕ → ℂ) :=
  let aq := resolveAq w x y aqOpt
  if aq.id = w.aq.id then
    (fun _n i pidx => qrInf K1 w x y _n i pidx * ((x - w.xw : ℝ) : ℂ)
        / ((rClamped w x y : ℝ) : ℂ),
     fun _n i pidx => qrInf K1 w x y _n i pidx * ((y - w.yw : ℝ) : ℂ)
        / ((rClamped w x y : ℝ) : ℂ))
  else (fun _ _ _ => 0, fun _ _ _ => 0)

/-- `WellBase.headinside`: head inside the well for screened layer index
`k`: the model head at the control point minus `resfach * strength`. -/
noncomputable def headinside (w : Well) (t : ℝ) (derivative : ℕ) :
    ℕ → ℝ :=
  fun k => w.model.head w.xc w.yc t derivative (w.pylayers k)
    - w.resfach k * w.strength t derivative k

/-- `DischargeWell.__init__`: delegates to `WellBase.__init__` with
`tsandbc = tsandQ` (type tag `g`); changes nothing else, so
`Nunknowns` stays `0`. -/
def mkDischargeWell (model : Model) (xw yw rw : ℝ)
    (tsandQ : List (ℝ × ℝ)) (res : ℝ) (layers : List ℕ) (Rzero : ℝ)
    (strength : ℝ → ℕ → ℕ → ℝ) : Well :=
  mkWellBase model xw yw rw tsandQ res layers Rzero strength

/-- `HeadWell.__init__`: delegates to `WellBase.__init__` with
`tsandbc = tsandh` (type tag `v`), then sets `Nunknowns = Nparam`. -/
def mkHeadWell (model : Model) (xw yw rw : ℝ)
    (tsandh : List (ℝ × ℝ)) (res : ℝ) (layers : List ℕ) (Rzero : ℝ)
    (strength : ℝ → ℕ → ℕ → ℝ) : Well :=
  let w := mkWellBase model xw yw rw tsandh res layers Rzero strength
  { w with Nunknowns := w.Nparam }

/-- `HeadWell.initialize`: runs `WellBase.initialize`, then allocates the
zero `parameters` tensor of shape `(Ngvbc, Nparam, Np)` and sets
`pc = aq.T[pylayers]` (unit-head coefficient). -/
noncomputable def initializeHeadWell (K1 : ℂ → ℂ) (w : Well) : Well :=
  let wi := initializeWell K1 w
  { wi with
    parameters := fun _ _ _ => 0,
    pc := fun k => wi.aq.T (wi.pylayers k) }

/-! Concrete single-layer, single-parameter scenario used by the
counterexamples and witnesses: one aquifer context with all eigen-data
equal to one, a second context differing only in identity, and models
whose Laplace grid is a single parameter. -/

/-- Concrete aquifer context: one layer, unit decay lengths and
coefficients. -/
def aquifer1 : Aquifer :=
  { id := 1, Naq := 1, lab := fun _ _ => 1, lab2 := fun _ _ _ => 1,
    coef := fun _ _ _ => 1, eigvec := fun _ _ _ => 1,
    Haq := fun _ => 1, T := fun _ => 1 }

/-- A distinct aquifer context (different identity, same data). -/
def aquifer2 : Aquifer :=
  { aquifer1 with id := 2 }

/-- Concrete model: a single Laplace parameter `p = 1`, every location
covered by `aquifer1`, zero head field. -/
def model1 : Model :=
  { Np := 1, Nin := 1, Npin := 1, Ngvbc := 1, p := fun _ => 1,
    findAquiferData := fun _ _ => aquifer1, head := fun _ _ _ _ _ => 0 }

/-- The same model with Laplace parameter `p = 2`. -/
def model2 : Model :=
  { model1 with p := fun _ => 2 }

/-- Constant-one stand-in for the abstract Bessel function arguments in
concrete evaluations. -/
def oneK : ℂ → ℂ := fun _ => 1

/-- Concrete well before initialization: center `(0,0)`, radius `2`,
unit step discharge series, no resistance, screened in layer `0`. -/
def wellbase1 : Well :=
  mkWellBase model1 0 0 2 [(0, 1)] 0 [0] 30 (fun _ _ _ => 0)

/-- The concrete well after `initialize`. -/
noncomputable def well1 : Well := initializeWell oneK wellbase1

/-- A concrete `HeadWell` on the `p = 2` model, after its `initialize`. -/
noncomputable def headwell2 : Well :=
  initializeHeadWell oneK (mkHeadWell model2 0 0 1 [(0, 1)] 0 [0] 30 (fun _ _ _ => 0))

/-- A concrete `DischargeWell` with step magnitude `Q = 2`, after
`initialize`. -/
noncomputable def dwell2 : Well :=
  initializeWell oneK (mkDischargeWell model1 0 0 1 [(0, 2)] 0 [0] 30 (fun _ _ _ => 0))

/-! Helper evaluation lemmas for the concrete scenario. -/

lemma well1_rw : well1.rw = 2 := rfl

lemma well1_aq : well1.aq = aquifer1 := rfl

lemma well1_Rzero : well1.Rzero = 30 := rfl

lemma well1_Npin : well1.model.Npin = 1 := rfl

lemma rU_well1_1 : rUnclamped well1 1 0 = 1 := by
  simp [rUnclamped, well1, initializeWell, wellbase1, mkWellBase]

lemma rU_well1_2 : rUnclamped well1 2 0 = 2 := by
  simp [rUnclamped, well1, initializeWell, wellbase1, mkWellBase]

lemma rU_well1_3 : rUnclamped well1 3 0 = 3 := by
  show Real.sqrt ((3 - 0) ^ 2 + (0 - 0) ^ 2) = 3
  rw [show ((3:ℝ) - 0) ^ 2 + ((0:ℝ) - 0) ^ 2 = 3 ^ 2 by norm_num,
    Real.sqrt_sq (by norm_num : (0:ℝ) ≤ 3)]

lemma rC_well1_1 : rClamped well1 1 0 = 2 := by
  rw [rClamped, rU_well1_1, well1_rw]; norm_num

lemma rC_well1_2 : rClamped well1 2 0 = 2 := by
  rw [rClamped, rU_well1_2, well1_rw]; norm_num

lemma term2_well1 : well1.term2 0 0 0 0
    = ((-1 / (2 * Real.pi) : ℝ) : ℂ) * (1 / 2) := by
  simp [well1, initializeWell, setflowcoef, wellbase1, mkWellBase, model1,
    aquifer1, oneK]

lemma qx_well1_1 : (disinf oneK well1 1 0 Option.none).1 0 0 0
    = ((-1 / (2 * Real.pi) : ℝ) : ℂ) * (1 / 4) := by
  have hm : (resolveAq well1 1 0 Option.none).id = well1.aq.id := rfl
  rw [disinf, if_pos hm]
  simp only [qrInf, rC_well1_1, well1_aq, well1_Rzero, well1_Npin,
    Nat.zero_div, Nat.zero_mod]
  rw [if_pos (by simp [aquifer1]; norm_num :
    (2:ℝ) / Complex.abs (aquifer1.lab2 0 0 0) < 30)]
  rw [term2_well1]
  simp [aquifer1, oneK, well1, initializeWell, wellbase1, mkWellBase]
  ring

lemma qx_well1_2 : (disinf oneK well1 2 0 Option.none).1 0 0 0
    = ((-1 / (2 * Real.pi) : ℝ) : ℂ) * (1 / 2) := by
  have hm : (resolveAq well1 2 0 Option.none).id = well1.aq.id := rfl
  rw [disinf, if_pos hm]
  simp only [qrInf, rC_well1_2, well1_aq, well1_Rzero, well1_Npin,
    Nat.zero_div, Nat.zero_mod]
  rw [if_pos (by simp [aquifer1]; norm_num :
    (2:ℝ) / Complex.abs (aquifer1.lab2 0 0 0) < 30)]
  rw [term2_well1]
  simp [aquifer1, oneK, well1, initializeWell, wellbase1, mkWellBase]
  ring

/-- Scaling the offset from the well center by a nonnegative factor scales
the computed radial distance by the same factor. -/
lemma rUnclamped_ray (w : Well) (x y : ℝ)
    (h0 : 0 < rUnclamped w x y) (hrw : 0 < w.rw) :
    rUnclamped w (w.xw + w.rw * (x - w.xw) / rUnclamped w x y)
        (w.yw + w.rw * (y - w.yw) / rUnclamped w x y) = w.rw := by
  have hne : rUnclamped w x y ≠ 0 := ne_of_gt h0
  rw [rUnclamped]
  have e : (w.xw + w.rw * (x - w.xw) / rUnclamped w x y - w.xw) ^ 2
      + (w.yw + w.rw * (y - w.yw) / rUnclamped w x y - w.yw) ^ 2
      = (w.rw / rUnclamped w x y) ^ 2 * ((x - w.xw) ^ 2 + (y - w.yw) ^ 2) := by
    field_simp
    ring
  rw [e, Real.sqrt_mul (sq_nonneg _),
    Real.sqrt_sq (le_of_lt (div_pos hrw h0))]
  rw [show Real.sqrt ((x - w.xw) ^ 2 + (y - w.yw) ^ 2) = rUnclamped w x y from rfl]
  field_simp

/-! The claims. -/

/-- C1 (counterexample): the claim that `disinf` at a point strictly
inside the well radius returns the same result as `disinf` at the point
at radius `rw` on the same ray is false: for the concrete well of radius
`2`, the `qx` component at distance `1` differs from the `qx` component
at the corresponding on-screen point at distance `2`, because the clamp
replaces `r` in the denominator but the offsets `(x-xw, y-yw)` keep their
inside values. -/
theorem c1_counterexample : (disinf oneK well1 1 0 Option.none).1 0 0 0
    ≠ (disinf oneK well1 2 0 Option.none).1 0 0 0 := by
  rw [qx_well1_1, qx_well1_2]
  intro h
  have hc : ((-1 / (2 * Real.pi) : ℝ) : ℂ) ≠ 0 := by
    simp [Complex.ofReal_eq_zero, div_eq_zero_iff, Real.pi_ne_zero]
  have h2 := mul_left_cancel₀ hc h
  norm_num at h2

/-- C1 (amended): for an observation point at distance `0 < r < rw` from
the well center, with matching aquifer context, `potinf` returns exactly
the tensor of the on-screen point at radius `rw` along the same ray
(clamp correctness for the potential), while each Cartesian component of
`disinf` equals `r / rw` times the corresponding component at the
on-screen point (the radial magnitude is clamped but the offsets are
not rescaled). -/
theorem c1_amended_clamp (K0 K1 : ℂ → ℂ) (w : Well) (x y : ℝ) (a : Aquifer)
    (hmatch : a.id = w.aq.id)
    (h0 : 0 < rUnclamped w x y) (hlt : rUnclamped w x y < w.rw) :
    potinf K0 w (w.xw + w.rw * (x - w.xw) / rUnclamped w x y)
        (w.yw + w.rw * (y - w.yw) / rUnclamped w x y) (Option.some a)
      = potinf K0 w x y (Option.some a)
    ∧ ∀ n i pidx,
        (disinf K1 w x y (Option.some a)).1 n i pidx
          = ((rUnclamped w x y / w.rw : ℝ) : ℂ)
            * (disinf K1 w (w.xw + w.rw * (x - w.xw) / rUnclamped w x y)
                (w.yw + w.rw * (y - w.yw) / rUnclamped w x y)
                (Option.some a)).1 n i pidx
        ∧ (disinf K1 w x y (Option.some a)).2 n i pidx
          = ((rUnclamped w x y / w.rw : ℝ) : ℂ)
            * (disinf K1 w (w.xw + w.rw * (x - w.xw) / rUnclamped w x y)
                (w.yw + w.rw * (y - w.yw) / rUnclamped w x y)
                (Option.some a)).2 n i pidx := by
  have hrw : 0 < w.rw := lt_trans h0 hlt
  have hne : rUnclamped w x y ≠ 0 := ne_of_gt h0
  have hray : rUnclamped w (w.xw + w.rw * (x - w.xw) / rUnclamped w x y)
      (w.yw + w.rw * (y - w.yw) / rUnclamped w x y) = w.rw :=
    rUnclamped_ray w x y h0 hrw
  have hcl1 : rClamped w x y = w.rw := by
    rw [rClamped, if_pos hlt]
  have hcl2 : rClamped w (w.xw + w.rw * (x - w.xw) / rUnclamped w x y)
      (w.yw + w.rw * (y - w.yw) / rUnclamped w x y) = w.rw := by
    rw [rClamped, hray, if_neg (lt_irrefl w.rw)]
  have hm : (resolveAq w x y (Option.some a)).id = w.aq.id := hmatch
  have hm2 : (resolveAq w (w.xw + w.rw * (x - w.xw) / rUnclamped w x y)
      (w.yw + w.rw * (y - w.yw) / rUnclamped w x y) (Option.some a)).id
      = w.aq.id := hmatch
  have hqr : qrInf K1 w (w.xw + w.rw * (x - w.xw) / rUnclamped w x y)
      (w.yw + w.rw * (y - w.yw) / rUnclamped w x y) = qrInf K1 w x y := by
    funext n i pidx
    simp only [qrInf, hcl1, hcl2]
  constructor
  · simp only [potinf]
    rw [if_pos hm, if_pos hm2]
    simp only [hcl1, hcl2]
  · intro n i pidx
    have hrwc : ((w.rw : ℝ) : ℂ) ≠ 0 := by
      rw [Ne, Complex.ofReal_eq_zero]
      exact ne_of_gt hrw
    have hnec : ((rUnclamped w x y : ℝ) : ℂ) ≠ 0 := by
      rwa [Ne, Complex.ofReal_eq_zero]
    constructor <;>
      · simp only [disinf]
        rw [if_pos hm, if_pos hm2]
        simp only [hcl1, hcl2, hqr]
        push_cast
        field_simp
        ring

/-- C1 (witness): the amended clamp relation instantiated on the concrete
radius-2 well at the inside point `(1, 0)` and its on-screen ray point. -/
theorem c1_witness :
    (aquifer1.id = well1.aq.id ∧ 0 < rUnclamped well1 1 0
      ∧ rUnclamped well1 1 0 < well1.rw)
    ∧ potinf oneK well1 (well1.xw + well1.rw * (1 - well1.xw) / rUnclamped well1 1 0)
        (well1.yw + well1.rw * (0 - well1.yw) / rUnclamped well1 1 0)
        (Option.some aquifer1)
      = potinf oneK well1 1 0 (Option.some aquifer1)
    ∧ (disinf oneK well1 1 0 (Option.some aquifer1)).1 0 0 0
      = ((rUnclamped well1 1 0 / well1.rw : ℝ) : ℂ)
        * (disinf oneK well1 (well1.xw + well1.rw * (1 - well1.xw) / rUnclamped well1 1 0)
            (well1.yw + well1.rw * (0 - well1.yw) / rUnclamped well1 1 0)
            (Option.some aquifer1)).1 0 0 0
    ∧ (disinf oneK well1 1 0 (Option.some aquifer1)).2 0 0 0
      = ((rUnclamped well1 1 0 / well1.rw : ℝ) : ℂ)
        * (disinf oneK well1 (well1.xw + well1.rw * (1 - well1.xw) / rUnclamped well1 1 0)
            (well1.yw + well1.rw * (0 - well1.yw) / rUnclamped well1 1 0)
            (Option.some aquifer1)).2 0 0 0 := by
  have hm : aquifer1.id = well1.aq.id := rfl
  have h0 : (0:ℝ) < rUnclamped well1 1 0 := by rw [rU_well1_1]; norm_num
  have hlt : rUnclamped well1 1 0 < well1.rw := by
    rw [rU_well1_1, well1_rw]; norm_num
  have h := c1_amended_clamp oneK oneK well1 1 0 aquifer1 hm h0 hlt
  exact ⟨⟨hm, h0, hlt⟩, h.1, (h.2 0 0 0).1, (h.2 0 0 0).2⟩

/-- C2 (counterexample): the claim that a `HeadWell` has flow coefficient
fixed at `1` for every Laplace parameter is false: on a model whose
Laplace parameter is `2`, the initialized `HeadWell` has flow coefficient
`1/2`, because `HeadWell` inherits `setflowcoef` (which sets
`flowcoef = 1/p`) without overriding it. -/
theorem c2_counterexample :
    headwell2.flowcoef 0 = 1 / 2 ∧ headwell2.flowcoef 0 ≠ 1 := by
  have h : headwell2.flowcoef 0 = 1 / 2 := by
    show (1 : ℂ) / model2.p 0 = 1 / 2
    norm_num [model2, model1]
  exact ⟨h, by rw [h]; norm_num⟩

/-- C2 (amended): after `initialize`, a `HeadWell` has the inherited
step-function flow coefficient `1/p` at every Laplace parameter (not `1`);
the unit-head character of the solve is expressed instead by
`Nunknowns = Nparam` and the unit-head coefficient `pc = T[pylayers]`. -/
theorem c2_amended_flowcoef (K1 : ℂ → ℂ) (model : Model) (xw yw rw0 : ℝ)
    (tsandh : List (ℝ × ℝ)) (res : ℝ) (layers : List ℕ) (Rz : ℝ)
    (strength : ℝ → ℕ → ℕ → ℝ) :
    (∀ pidx, (initializeHeadWell K1
        (mkHeadWell model xw yw rw0 tsandh res layers Rz strength)).flowcoef pidx
      = 1 / model.p pidx)
    ∧ (initializeHeadWell K1
        (mkHeadWell model xw yw rw0 tsandh res layers Rz strength)).Nunknowns
      = layers.length
    ∧ (∀ k, (initializeHeadWell K1
        (mkHeadWell model xw yw rw0 tsandh res layers Rz strength)).pc k
      = (model.findAquiferData xw yw).T (pylayersOf layers k)) := by
  exact ⟨fun pidx => rfl, rfl, fun k => rfl⟩

/-- C3: when the supplied or looked-up aquifer context differs from the
well's bound context, `potinf` returns the all-zero tensor and `disinf`
returns two all-zero tensors. -/
theorem c3_mismatch_zero (K0 K1 : ℂ → ℂ) (w : Well) (x y : ℝ)
    (aqOpt : Option Aquifer)
    (h : ¬ (resolveAq w x y aqOpt).id = w.aq.id) :
    (∀ n i pidx, potinf K0 w x y aqOpt n i pidx = 0)
    ∧ (∀ n i pidx, (disinf K1 w x y aqOpt).1 n i pidx = 0
        ∧ (disinf K1 w x y aqOpt).2 n i pidx = 0) := by
  refine ⟨fun n i pidx => ?_, fun n i pidx => ⟨?_, ?_⟩⟩ <;>
    · simp only [potinf, disinf]
      rw [if_neg h]

/-- C3 (witness): the mismatch contract evaluated on the concrete well
with an explicitly supplied distinct aquifer context. -/
theorem c3_witness :
    (¬ (resolveAq well1 5 5 (Option.some aquifer2)).id = well1.aq.id)
    ∧ potinf oneK well1 5 5 (Option.some aquifer2) 0 0 0 = 0
    ∧ (disinf oneK well1 5 5 (Option.some aquifer2)).1 0 0 0 = 0
    ∧ (disinf oneK well1 5 5 (Option.some aquifer2)).2 0 0 0 = 0 := by
  have hm : ¬ (resolveAq well1 5 5 (Option.some aquifer2)).id = well1.aq.id := by
    rw [show (resolveAq well1 5 5 (Option.some aquifer2)).id = 2 from rfl,
      show well1.aq.id = 1 from rfl]
    norm_num
  have h := c3_mismatch_zero oneK oneK well1 5 5 (Option.some aquifer2) hm
  exact ⟨hm, h.1 0 0 0, (h.2 0 0 0).1, (h.2 0 0 0).2⟩

/-- C4: with matching aquifer context, both evaluators gate each
`(layer i, interval j)` block by the single cutoff test
`r / abs(lab2[i,j,0]) < Rzero`: at or beyond the cutoff every entry of
that block (every per-interval parameter `k`) is exactly zero in `potinf`
and in both `disinf` components, and below the cutoff the entries carry
the Bessel terms `K0` resp. `K1`. -/
theorem c4_cutoff_blocks (K0 K1 : ℂ → ℂ) (w : Well) (x y : ℝ)
    (aqOpt : Option Aquifer)
    (hmatch : (resolveAq w x y aqOpt).id = w.aq.id)
    (i j k : ℕ) (hk : k < w.model.Npin) :
    (w.Rzero ≤ rClamped w x y / Complex.abs (w.aq.lab2 i j 0) →
      ∀ n, potinf K0 w x y aqOpt n i (j * w.model.Npin + k) = 0
        ∧ (disinf K1 w x y aqOpt).1 n i (j * w.model.Npin + k) = 0
        ∧ (disinf K1 w x y aqOpt).2 n i (j * w.model.Npin + k) = 0)
    ∧ (rClamped w x y / Complex.abs (w.aq.lab2 i j 0) < w.Rzero →
      ∀ n, potinf K0 w x y aqOpt n i (j * w.model.Npin + k)
          = w.term2 n i j k * K0 ((rClamped w x y : ℂ) / w.aq.lab2 i j k)
        ∧ (disinf K1 w x y aqOpt).1 n i (j * w.model.Npin + k)
          = w.term2 n i j k * K1 ((rClamped w x y : ℂ) / w.aq.lab2 i j k)
              / w.aq.lab2 i j k * ((x - w.xw : ℝ) : ℂ)
              / ((rClamped w x y : ℝ) : ℂ)
        ∧ (disinf K1 w x y aqOpt).2 n i (j * w.model.Npin + k)
          = w.term2 n i j k * K1 ((rClamped w x y : ℂ) / w.aq.lab2 i j k)
              / w.aq.lab2 i j k * ((y - w.yw : ℝ) : ℂ)
              / ((rClamped w x y : ℝ) : ℂ)) := by
  have hpos : 0 < w.model.Npin := lt_of_le_of_lt (Nat.zero_le k) hk
  have hdiv : (j * w.model.Npin + k) / w.model.Npin = j := by
    rw [Nat.mul_comm, Nat.mul_add_div hpos, Nat.div_eq_of_lt hk, Nat.add_zero]
  have hmod : (j * w.model.Npin + k) % w.model.Npin = k := by
    rw [Nat.mul_comm, Nat.mul_add_mod, Nat.mod_eq_of_lt hk]
  constructor
  · intro hgate n
    refine ⟨?_, ?_, ?_⟩
    · simp only [potinf]
      rw [if_pos hmatch]
      simp only [hdiv, hmod]
      rw [if_neg (not_lt.mpr hgate)]
    · simp only [disinf, qrInf]
      rw [if_pos hmatch]
      simp only [hdiv, hmod]
      rw [if_neg (not_lt.mpr hgate), zero_mul, zero_div]
    · simp only [disinf, qrInf]
      rw [if_pos hmatch]
      simp only [hdiv, hmod]
      rw [if_neg (not_lt.mpr hgate), zero_mul, zero_div]
  · intro hgate n
    refine ⟨?_, ?_, ?_⟩
    · simp only [potinf]
      rw [if_pos hmatch]
      simp only [hdiv, hmod]
      rw [if_pos hgate]
    · simp only [disinf, qrInf]
      rw [if_pos hmatch]
      simp only [hdiv, hmod]
      rw [if_pos hgate]
    · simp only [disinf, qrInf]
      rw [if_pos hmatch]
      simp only [hdiv, hmod]
      rw [if_pos hgate]

/-- C4 (witness): the below-cutoff branch evaluated on the concrete well
at `(1, 0)`, block `(i, j) = (0, 0)`, per-interval parameter `0`. -/
theorem c4_witness :
    ((resolveAq well1 1 0 Option.none).id = well1.aq.id
      ∧ 0 < well1.model.Npin
      ∧ rClamped well1 1 0 / Complex.abs (well1.aq.lab2 0 0 0) < well1.Rzero)
    ∧ potinf oneK well1 1 0 Option.none 0 0 (0 * well1.model.Npin + 0)
      = well1.term2 0 0 0 0
        * oneK ((rClamped well1 1 0 : ℂ) / well1.aq.lab2 0 0 0)
    ∧ (disinf oneK well1 1 0 Option.none).1 0 0 (0 * well1.model.Npin + 0)
      = well1.term2 0 0 0 0
        * oneK ((rClamped well1 1 0 : ℂ) / well1.aq.lab2 0 0 0)
        / well1.aq.lab2 0 0 0 * ((1 - well1.xw : ℝ) : ℂ)
        / ((rClamped well1 1 0 : ℝ) : ℂ)
    ∧ (disinf oneK well1 1 0 Option.none).2 0 0 (0 * well1.model.Npin + 0)
      = well1.term2 0 0 0 0
        * oneK ((rClamped well1 1 0 : ℂ) / well1.aq.lab2 0 0 0)
        / well1.aq.lab2 0 0 0 * ((0 - well1.yw : ℝ) : ℂ)
        / ((rClamped well1 1 0 : ℝ) : ℂ) := by
  have hm : (resolveAq well1 1 0 Option.none).id = well1.aq.id := rfl
  have hk : (0:ℕ) < well1.model.Npin := by rw [well1_Npin]; norm_num
  have hgate : rClamped well1 1 0 / Complex.abs (well1.aq.lab2 0 0 0)
      < well1.Rzero := by
    rw [rC_well1_1, well1_aq, well1_Rzero]
    simp [aquifer1]
    norm_num
  have h := (c4_cutoff_blocks oneK oneK well1 1 0 Option.none hm 0 0 0 hk).2
    hgate 0
  exact ⟨⟨hm, hk, hgate⟩, h.1, h.2.1, h.2.2⟩

/-- C5: after `initialize`, `term[k,i,p]` is the product of the
`-1/(2*pi)` constant, the `lab/(rw*K1(rw/lab))` normalization, the flow
coefficient `1/p`, and the coupling coefficient `coef[pylayers[k],i,p]`;
and `term2` is exactly the row-major `(Nparam, Naq, Nin, Npin)` reshape
of `term`, consistently in both index directions. -/
theorem c5_term_term2 (K1 : ℂ → ℂ) (w : Well) :
    (∀ k i pidx, (initializeWell K1 w).term k i pidx
        = ((-1 / (2 * Real.pi) : ℝ) : ℂ)
          * ((w.model.findAquiferData w.xw w.yw).lab i pidx
              / ((w.rw : ℂ)
                * K1 ((w.rw : ℂ) / (w.model.findAquiferData w.xw w.yw).lab i pidx)))
          * (1 / w.model.p pidx)
          * (w.model.findAquiferData w.xw w.yw).coef (w.pylayers k) i pidx)
    ∧ (∀ k i j q, (initializeWell K1 w).term2 k i j q
        = (initializeWell K1 w).term k i (j * w.model.Npin + q))
    ∧ (∀ k i pidx, (initializeWell K1 w).term k i pidx
        = (initializeWell K1 w).term2 k i (pidx / w.model.Npin)
            (pidx % w.model.Npin)) := by
  refine ⟨fun k i pidx => rfl, fun k i j q => rfl, fun k i pidx => ?_⟩
  show (initializeWell K1 w).term k i pidx
      = (initializeWell K1 w).term k i
          (pidx / w.model.Npin * w.model.Npin + pidx % w.model.Npin)
  rw [Nat.div_add_mod']

/-- C6: with matching aquifer context and observation distance at least
`rw`, the `disinf` components are the radial flux tensor `qr` (built from
`term2` and `K1(r/lab2)/lab2`) decomposed along the outward ray:
`qx = qr*(x-xw)/r`, `qy = qr*(y-yw)/r`, and they satisfy
`qx^2 + qy^2 = qr^2` entrywise. -/
theorem c6_discharge_decomposition (K1 : ℂ → ℂ) (w : Well) (x y : ℝ)
    (aqOpt : Option Aquifer)
    (hmatch : (resolveAq w x y aqOpt).id = w.aq.id)
    (hrw : 0 < w.rw) (hr : w.rw ≤ rUnclamped w x y) :
    ∀ n i pidx,
      (disinf K1 w x y aqOpt).1 n i pidx
        = qrInf K1 w x y n i pidx * ((x - w.xw : ℝ) : ℂ)
          / ((rUnclamped w x y : ℝ) : ℂ)
      ∧ (disinf K1 w x y aqOpt).2 n i pidx
        = qrInf K1 w x y n i pidx * ((y - w.yw : ℝ) : ℂ)
          / ((rUnclamped w x y : ℝ) : ℂ)
      ∧ ((disinf K1 w x y aqOpt).1 n i pidx) ^ 2
          + ((disinf K1 w x y aqOpt).2 n i pidx) ^ 2
        = (qrInf K1 w x y n i pidx) ^ 2 := by
  have hcl : rClamped w x y = rUnclamped w x y := by
    rw [rClamped, if_neg (not_lt.mpr hr)]
  have hr0 : rUnclamped w x y ≠ 0 := ne_of_gt (lt_of_lt_of_le hrw hr)
  have hr0c : ((rUnclamped w x y : ℝ) : ℂ) ≠ 0 := by
    rwa [Ne, Complex.ofReal_eq_zero]
  have hsq : ((x - w.xw : ℝ) : ℂ) ^ 2 + ((y - w.yw : ℝ) : ℂ) ^ 2
      = ((rUnclamped w x y : ℝ) : ℂ) ^ 2 := by
    have hs : (x - w.xw) ^ 2 + (y - w.yw) ^ 2 = rUnclamped w x y ^ 2 := by
      rw [rUnclamped, Real.sq_sqrt (by positivity)]
    push_cast
    exact_mod_cast congrArg (fun t : ℝ => (t : ℂ)) hs
  intro n i pidx
  have h1 : (disinf K1 w x y aqOpt).1 n i pidx
      = qrInf K1 w x y n i pidx * ((x - w.xw : ℝ) : ℂ)
        / ((rUnclamped w x y : ℝ) : ℂ) := by
    simp only [disinf]
    rw [if_pos hmatch]
    simp only [hcl]
  have h2 : (disinf K1 w x y aqOpt).2 n i pidx
      = qrInf K1 w x y n i pidx * ((y - w.yw : ℝ) : ℂ)
        / ((rUnclamped w x y : ℝ) : ℂ) := by
    simp only [disinf]
    rw [if_pos hmatch]
    simp only [hcl]
  refine ⟨h1, h2, ?_⟩
  rw [h1, h2]
  push_cast at hsq
  field_simp
  linear_combination (qrInf K1 w x y n i pidx) ^ 2 * hsq

/-- C6 (witness): the decomposition identity evaluated on the concrete
well at the outside point `(3, 0)`. -/
theorem c6_witness :
    ((resolveAq well1 3 0 Option.none).id = well1.aq.id
      ∧ 0 < well1.rw ∧ well1.rw ≤ rUnclamped well1 3 0)
    ∧ (disinf oneK well1 3 0 Option.none).1 0 0 0
      = qrInf oneK well1 3 0 0 0 0 * ((3 - well1.xw : ℝ) : ℂ)
        / ((rUnclamped well1 3 0 : ℝ) : ℂ)
    ∧ (disinf oneK well1 3 0 Option.none).2 0 0 0
      = qrInf oneK well1 3 0 0 0 0 * ((0 - well1.yw : ℝ) : ℂ)
        / ((rUnclamped well1 3 0 : ℝ) : ℂ)
    ∧ ((disinf oneK well1 3 0 Option.none).1 0 0 0) ^ 2
        + ((disinf oneK well1 3 0 Option.none).2 0 0 0) ^ 2
      = (qrInf oneK well1 3 0 0 0 0) ^ 2 := by
  have hm : (resolveAq well1 3 0 Option.none).id = well1.aq.id := rfl
  have hrw : (0:ℝ) < well1.rw := by rw [well1_rw]; norm_num
  have hr : well1.rw ≤ rUnclamped well1 3 0 := by
    rw [well1_rw, rU_well1_3]; norm_num
  have h := c6_discharge_decomposition oneK well1 3 0 Option.none hm hrw hr 0 0 0
  exact ⟨⟨hm, hrw, hr⟩, h.1, h.2.1, h.2.2⟩

/-- C7: after `initialize`, `resfach[k] = res / (2*pi*rw*Haq[pylayers[k]])`
and `resfacp[k] = resfach[k] * T[pylayers[k]]`; when `res = 0` both
factors vanish and `headinside` reduces to exactly the model head at the
control point in the screened layer, with no resistance drop term. -/
theorem c7_resistance_factors (K1 : ℂ → ℂ) (w : Well) (k : ℕ) :
    (initializeWell K1 w).resfach k
        = w.res / (2 * Real.pi * w.rw
            * (w.model.findAquiferData w.xw w.yw).Haq (w.pylayers k))
    ∧ (initializeWell K1 w).resfacp k
        = (initializeWell K1 w).resfach k
          * (w.model.findAquiferData w.xw w.yw).T (w.pylayers k)
    ∧ (w.res = 0 →
        (initializeWell K1 w).resfach k = 0
        ∧ (initializeWell K1 w).resfacp k = 0
        ∧ ∀ t d, headinside (initializeWell K1 w) t d k
            = w.model.head (w.xw + w.rw) w.yw t d (w.pylayers k)) := by
  refine ⟨rfl, rfl, fun hres => ?_⟩
  have hfach : (initializeWell K1 w).resfach k = 0 := by
    show w.res / _ = 0
    rw [hres, zero_div]
  refine ⟨hfach, ?_, fun t d => ?_⟩
  · show (initializeWell K1 w).resfach k * _ = 0
    rw [hfach, zero_mul]
  · show (initializeWell K1 w).model.head (initializeWell K1 w).xc
        (initializeWell K1 w).yc t d ((initializeWell K1 w).pylayers k)
      - (initializeWell K1 w).resfach k
        * (initializeWell K1 w).strength t d k = _
    rw [hfach, zero_mul, sub_zero]
    rfl

/-- C7 (witness): the zero-resistance reduction evaluated on the concrete
well (which has `res = 0`). -/
theorem c7_witness :
    wellbase1.res = 0
    ∧ (initializeWell oneK wellbase1).resfach 0
      = wellbase1.res / (2 * Real.pi * wellbase1.rw
          * (wellbase1.model.findAquiferData wellbase1.xw wellbase1.yw).Haq
              (wellbase1.pylayers 0))
    ∧ (initializeWell oneK wellbase1).resfach 0 = 0
    ∧ (initializeWell oneK wellbase1).resfacp 0 = 0
    ∧ headinside (initializeWell oneK wellbase1) 5 0 0
      = wellbase1.model.head (wellbase1.xw + wellbase1.rw) wellbase1.yw 5 0
          (wellbase1.pylayers 0) := by
  have hres : wellbase1.res = 0 := rfl
  have h := c7_resistance_factors oneK wellbase1 0
  exact ⟨hres, h.1, (h.2.2 hres).1, (h.2.2 hres).2.1, (h.2.2 hres).2.2 5 0⟩

/-- C8 (counterexample): the claim that a `DischargeWell` built with the
series `[(0.0, Q)]` has flow coefficient `Q/p` is false for `Q = 2`: the
flow coefficient is `1/p` independently of `Q` (here `1/1 = 1`, not
`2/1 = 2`); the magnitude of the series is handled by the external
boundary-condition machinery (`setbc`), not by `setflowcoef`. -/
theorem c8_counterexample :
    dwell2.Nunknowns = 0 ∧ dwell2.flowcoef 0 = 1 ∧ dwell2.flowcoef 0 ≠ 2 := by
  have h : dwell2.flowcoef 0 = 1 := by
    show (1 : ℂ) / model1.p 0 = 1
    norm_num [model1]
  exact ⟨rfl, h, by rw [h]; norm_num⟩

/-- C8 (amended): a `DischargeWell` has `Nunknowns = 0` and, after
`initialize`, the precomputed flow coefficient at every Laplace parameter
is the unit-step transform `1/p`, regardless of the magnitudes in its
`tsandQ` series. -/
theorem c8_amended_flowcoef (K1 : ℂ → ℂ) (model : Model) (xw yw rw0 : ℝ)
    (tsandQ : List (ℝ × ℝ)) (res : ℝ) (layers : List ℕ) (Rz : ℝ)
    (strength : ℝ → ℕ → ℕ → ℝ) :
    (initializeWell K1
        (mkDischargeWell model xw yw rw0 tsandQ res layers Rz strength)).Nunknowns
      = 0
    ∧ (∀ pidx, (initializeWell K1
        (mkDischargeWell model xw yw rw0 tsandQ res layers Rz strength)).flowcoef pidx
      = 1 / model.p pidx) := by
  exact ⟨rfl, fun pidx => rfl⟩

/-- C9 (counterexample): the claim that construction or initialization
with a non-positive radius or an empty screened-layer set fails with a
configuration error is false: the constructor accepts `rw = -1` together
with an empty layer list, storing the fields unchanged (so `Nparam = 0`),
and `initialize` still binds the aquifer context without any error. -/
theorem c9_counterexample :
    (mkWellBase model1 0 0 (-1) [(0, 1)] 0 [] 30 (fun _ _ _ => 0)).rw = -1
    ∧ (mkWellBase model1 0 0 (-1) [(0, 1)] 0 [] 30 (fun _ _ _ => 0)).Nparam = 0
    ∧ (initializeWell oneK
        (mkWellBase model1 0 0 (-1) [(0, 1)] 0 [] 30 (fun _ _ _ => 0))).aq
      = aquifer1 := by
  exact ⟨rfl, rfl, rfl⟩

/-- C9 (amended): `WellBase.__init__` and `WellBase.initialize` perform no
validation: for every radius (including non-positive ones) and every
layer list (including the empty one) construction succeeds, the fields
are stored as given with `Nparam = |layers|` and `Nunknowns = 0`, and
initialization binds whatever aquifer context the lookup returns. -/
theorem c9_no_validation (K1 : ℂ → ℂ) (model : Model) (xw yw rw0 : ℝ)
    (tsandbc : List (ℝ × ℝ)) (res : ℝ) (layers : List ℕ) (Rz : ℝ)
    (strength : ℝ → ℕ → ℕ → ℝ) :
    (mkWellBase model xw yw rw0 tsandbc res layers Rz strength).rw = rw0
    ∧ (mkWellBase model xw yw rw0 tsandbc res layers Rz strength).Nparam
      = layers.length
    ∧ (mkWellBase model xw yw rw0 tsandbc res layers Rz strength).res = res
    ∧ (mkWellBase model xw yw rw0 tsandbc res layers Rz strength).Nunknowns = 0
    ∧ (initializeWell K1
        (mkWellBase model xw yw rw0 tsandbc res layers Rz strength)).aq
      = model.findAquiferData xw yw := by
  exact ⟨rfl, rfl, rfl, rfl, rfl⟩

/-- C10: calling `disinf` exactly at the well center with matching
aquifer context is safe: the clamp replaces the computed `r = 0` by `rw`
(a nonzero divisor), and since both offsets `(x-xw)` and `(y-yw)` vanish
there, both returned component tensors are exactly zero. -/
theorem c10_center_safe (K1 : ℂ → ℂ) (w : Well) (aqOpt : Option Aquifer)
    (hmatch : (resolveAq w w.xw w.yw aqOpt).id = w.aq.id)
    (hrw : 0 < w.rw) :
    rClamped w w.xw w.yw = w.rw
    ∧ (∀ n i pidx, (disinf K1 w w.xw w.yw aqOpt).1 n i pidx = 0
        ∧ (disinf K1 w w.xw w.yw aqOpt).2 n i pidx = 0) := by
  have hU : rUnclamped w w.xw w.yw = 0 := by
    simp [rUnclamped]
  have hcl : rClamped w w.xw w.yw = w.rw := by
    rw [rClamped, hU, if_pos hrw]
  refine ⟨hcl, fun n i pidx => ⟨?_, ?_⟩⟩ <;>
    · simp only [disinf]
      rw [if_pos hmatch]
      simp

/-- C10 (witness): the center-point safety contract evaluated on the
concrete well at its own center. -/
theorem c10_witness :
    ((resolveAq well1 well1.xw well1.yw Option.none).id = well1.aq.id
      ∧ 0 < well1.rw)
    ∧ rClamped well1 well1.xw well1.yw = well1.rw
    ∧ (disinf oneK well1 well1.xw well1.yw Option.none).1 0 0 0 = 0
    ∧ (disinf oneK well1 well1.xw well1.yw Option.none).2 0 0 0 = 0 := by
  have hm : (resolveAq well1 well1.xw well1.yw Option.none).id
      = well1.aq.id := rfl
  have hrw : (0:ℝ) < well1.rw := by rw [well1_rw]; norm_num
  have h := c10_center_safe oneK well1 Option.none hm hrw
  exact ⟨⟨hm, hrw⟩, h.1, (h.2 0 0 0).1, (h.2 0 0 0).2⟩
